import Mathlib

/-!
# KudosTracker — shallow embedding and verification

A shallow embedding of the Solidity contract `KudosTracker`
(`contracts/KudosTracker.sol`) and proofs about its specification.

Modelling conventions:
* `address` is modelled as `Nat`; `address(0)` is `0`.  Externally
  originated calls always have a nonzero `msg.sender` (a zero sender
  cannot sign a transaction), which the step relation records.
* `block.timestamp` is modelled as an explicit `Nat` argument `now`.
* Solidity `mapping`s are total functions with the zero-value default,
  matching EVM storage semantics; `delete` writes the default value.
* A reverting call is modelled as `Except.error e` for a typed error
  `e` mirroring the contract's `require`/`revert` messages; a revert
  leaves the state unchanged by construction (no state is returned).
* Solidity string byte lengths (`bytes(s).length`) are modelled by
  `utf8Len`, the UTF-8 byte count of the Lean string.
-/

namespace KudosTracker

/-- Pointwise update of a mapping, i.e. a Solidity storage write
`m[k] = v` (and `delete m[k]` when `v` is the type's zero value). -/
def updF {κ α : Type} [DecidableEq κ] (f : κ → α) (k : κ) (v : α) : κ → α :=
  fun x => if x = k then v else f x

/-- UTF-8 size in bytes of one character (mirrors how Solidity sees a
`string` as raw UTF-8 `bytes`). -/
def charUtf8Size (c : Char) : Nat :=
  if c.toNat < 0x80 then 1
  else if c.toNat < 0x800 then 2
  else if c.toNat < 0x10000 then 3
  else 4

/-- Byte length `bytes(s).length` of the Solidity string `s`. -/
def utf8Len (s : String) : Nat :=
  s.data.foldl (fun n c => n + charUtf8Size c) 0

/-- Solidity `struct User` of `KudosTracker`. -/
structure User where
  xHandle : String
  kudosReceived : Nat
  kudosGiven : Nat
  isRegistered : Bool
  registeredAt : Nat
  deletionRequestedAt : Nat
deriving DecidableEq

/-- The zero value of `struct User` (what `delete users[a]` writes and
what an untouched mapping slot holds). -/
def defaultUser : User :=
  { xHandle := "", kudosReceived := 0, kudosGiven := 0,
    isRegistered := false, registeredAt := 0, deletionRequestedAt := 0 }

/-- Solidity `struct KudosTransaction` of `KudosTracker`.  The Solidity fields
`from`/`to` are named `fromAddr`/`toAddr` (`from` is a Lean keyword). -/
structure KudosTransaction where
  fromAddr : Nat
  toAddr : Nat
  fromHandle : String
  toHandle : String
  timestamp : Nat
  tweetUrl : String
deriving DecidableEq

/-- The full contract storage of `KudosTracker`. -/
structure KState where
  users : Nat → User
  handleToAddress : String → Nat
  processedTweets : String → Bool
  deletedHandles : String → Bool
  lastDeletionTime : Nat → Nat
  privateProfiles : Nat → Bool
  kudosHistory : List KudosTransaction

/-- Storage just after deployment: every mapping holds zero values and
the history is empty. -/
def initState : KState :=
  { users := fun _ => defaultUser
    handleToAddress := fun _ => 0
    processedTweets := fun _ => false
    deletedHandles := fun _ => false
    lastDeletionTime := fun _ => 0
    privateProfiles := fun _ => false
    kudosHistory := [] }

/-- Constant `DELETION_GRACE_PERIOD = 7 days`, in seconds. -/
def DELETION_GRACE_PERIOD : Nat := 7 * 86400

/-- Constant `REREGISTRATION_COOLDOWN = 30 days`, in seconds. -/
def REREGISTRATION_COOLDOWN : Nat := 30 * 86400

/-- Constant `MIN_HANDLE_LENGTH = 3`. -/
def MIN_HANDLE_LENGTH : Nat := 3

/-- Constant `MAX_HANDLE_LENGTH = 15`. -/
def MAX_HANDLE_LENGTH : Nat := 15

/-- Typed counterpart of the contract's revert reasons, one
constructor per distinct `require`/`revert` message. -/
inductive KErr where
  /-- Reason "Handle too short" -/
  | handleTooShort
  /-- Reason "Handle too long" -/
  | handleTooLong
  /-- Reason "Invalid handle format" -/
  | invalidHandleFormat
  /-- Reason "User already registered" -/
  | alreadyRegistered
  /-- Reason "Handle already taken" -/
  | handleTaken
  /-- Reason "Handle permanently retired" -/
  | handleRetired
  /-- Reason "Reregistration cooldown period active" -/
  | cooldownActive
  /-- Reason "User not registered" -/
  | notRegistered
  /-- Reason "Account pending deletion" (from `onlyRegistered` / `notPendingDeletion`) -/
  | pendingDeletion
  /-- Reason "Deletion already requested" -/
  | deletionAlreadyRequested
  /-- Reason "No deletion request pending" -/
  | noDeletionPending
  /-- Reason "Grace period not expired" -/
  | gracePeriodNotExpired
  /-- Reason "Tweet URL required" -/
  | tweetUrlRequired
  /-- Reason "Tweet already processed" -/
  | tweetAlreadyProcessed
  /-- Reason "Recipient not registered" -/
  | recipientNotRegistered
  /-- Reason "Cannot give kudos to yourself" -/
  | selfKudos
  /-- Reason "Recipient pending deletion" -/
  | recipientPendingDeletion
  /-- Reason "User not found" -/
  | userNotFound
  /-- Reason "Profile is private" -/
  | profilePrivate
deriving DecidableEq

/-- One allowed byte of a handle, as checked by `_isValidHandle`:
`0-9`, `A-Z`, `a-z` or `_`.  Valid bytes are all ASCII, so checking
characters is equivalent to checking UTF-8 bytes (any character
≥ `0x80` fails both views). -/
def isKudosChar (c : Char) : Bool :=
  decide ((0x30 ≤ c.toNat ∧ c.toNat ≤ 0x39) ∨
          (0x41 ≤ c.toNat ∧ c.toNat ≤ 0x5A) ∨
          (0x61 ≤ c.toNat ∧ c.toNat ≤ 0x7A) ∨
          c.toNat = 0x5F)

/-- Contract helper `_isValidHandle`: every byte of the handle is alphanumeric or an
underscore.  Note the contract checks only the character set here, not
the length. -/
def isValidHandle (h : String) : Bool :=
  h.data.all isKudosChar

/-- Entry point `registerUser(_xHandle)` called by `sender` at `block.timestamp =
now`.  Checks are in the contract's `require` order. -/
def registerUser (s : KState) (sender now : Nat) (xHandle : String) :
    Except KErr KState :=
  if utf8Len xHandle < MIN_HANDLE_LENGTH then .error .handleTooShort
  else if MAX_HANDLE_LENGTH < utf8Len xHandle then .error .handleTooLong
  else if isValidHandle xHandle = false then .error .invalidHandleFormat
  else if (s.users sender).isRegistered = true then .error .alreadyRegistered
  else if s.handleToAddress xHandle ≠ 0 then .error .handleTaken
  else if s.deletedHandles xHandle = true then .error .handleRetired
  else if 0 < s.lastDeletionTime sender ∧
          now < s.lastDeletionTime sender + REREGISTRATION_COOLDOWN then
    .error .cooldownActive
  else
    .ok { s with
      users := updF s.users sender
        { xHandle := xHandle, kudosReceived := 0, kudosGiven := 0,
          isRegistered := true, registeredAt := now, deletionRequestedAt := 0 }
      handleToAddress := updF s.handleToAddress xHandle sender }

/-- Entry point `requestAccountDeletion()` called by `sender` at time `now`.  The
`onlyRegistered` modifier runs first (registered, and
`deletionRequestedAt == 0`), then the body's own
"Deletion already requested" check (unreachable after the modifier,
kept for faithfulness). -/
def requestAccountDeletion (s : KState) (sender now : Nat) :
    Except KErr KState :=
  if (s.users sender).isRegistered = false then .error .notRegistered
  else if (s.users sender).deletionRequestedAt ≠ 0 then .error .pendingDeletion
  else if (s.users sender).deletionRequestedAt ≠ 0 then
    .error .deletionAlreadyRequested
  else
    .ok { s with
      users := updF s.users sender
        { s.users sender with deletionRequestedAt := now } }

/-- Entry point `cancelAccountDeletion()` called by `sender`. -/
def cancelAccountDeletion (s : KState) (sender : Nat) : Except KErr KState :=
  if (s.users sender).isRegistered = false then .error .notRegistered
  else if (s.users sender).deletionRequestedAt = 0 then .error .noDeletionPending
  else
    .ok { s with
      users := updF s.users sender
        { s.users sender with deletionRequestedAt := 0 } }

/-- Entry point `executeAccountDeletion(_user)` at time `now`; callable by anyone,
so no sender argument is needed. -/
def executeAccountDeletion (s : KState) (target now : Nat) :
    Except KErr KState :=
  if (s.users target).isRegistered = false then .error .notRegistered
  else if (s.users target).deletionRequestedAt = 0 then .error .noDeletionPending
  else if now < (s.users target).deletionRequestedAt + DELETION_GRACE_PERIOD then
    .error .gracePeriodNotExpired
  else
    .ok { s with
      deletedHandles := updF s.deletedHandles (s.users target).xHandle true
      lastDeletionTime := updF s.lastDeletionTime target now
      handleToAddress := updF s.handleToAddress (s.users target).xHandle 0
      users := updF s.users target defaultUser
      privateProfiles := updF s.privateProfiles target false }

/-- Entry point `deleteAccountImmediately()` called by `sender` at time `now`. -/
def deleteAccountImmediately (s : KState) (sender now : Nat) :
    Except KErr KState :=
  if (s.users sender).isRegistered = false then .error .notRegistered
  else
    .ok { s with
      deletedHandles := updF s.deletedHandles (s.users sender).xHandle true
      lastDeletionTime := updF s.lastDeletionTime sender now
      handleToAddress := updF s.handleToAddress (s.users sender).xHandle 0
      users := updF s.users sender defaultUser
      privateProfiles := updF s.privateProfiles sender false }

/-- Entry point `setProfilePrivacy(_isPrivate)` called by `sender`; guarded by
`onlyRegistered`, which requires both registration and no pending
deletion request. -/
def setProfilePrivacy (s : KState) (sender : Nat) (isPrivate : Bool) :
    Except KErr KState :=
  if (s.users sender).isRegistered = false then .error .notRegistered
  else if (s.users sender).deletionRequestedAt ≠ 0 then .error .pendingDeletion
  else
    .ok { s with privateProfiles := updF s.privateProfiles sender isPrivate }

/-- Entry point `giveKudos(_toHandle, _tweetUrl)` called by `sender` at time
`now`.  The `onlyRegistered` and `notPendingDeletion` modifiers run
first (the latter repeats the pending check), then the body. -/
def giveKudos (s : KState) (sender now : Nat) (toHandle tweetUrl : String) :
    Except KErr KState :=
  if (s.users sender).isRegistered = false then .error .notRegistered
  else if (s.users sender).deletionRequestedAt ≠ 0 then .error .pendingDeletion
  else if utf8Len tweetUrl = 0 then .error .tweetUrlRequired
  else if s.processedTweets tweetUrl = true then .error .tweetAlreadyProcessed
  else if s.handleToAddress toHandle = 0 then .error .recipientNotRegistered
  else if s.handleToAddress toHandle = sender then .error .selfKudos
  else if (s.users (s.handleToAddress toHandle)).deletionRequestedAt ≠ 0 then
    .error .recipientPendingDeletion
  else
    let toAddress := s.handleToAddress toHandle
    let u1 := updF s.users sender
      { s.users sender with kudosGiven := (s.users sender).kudosGiven + 1 }
    let u2 := updF u1 toAddress
      { u1 toAddress with kudosReceived := (u1 toAddress).kudosReceived + 1 }
    .ok { s with
      users := u2
      kudosHistory := s.kudosHistory ++
        [{ fromAddr := sender, toAddr := toAddress,
           fromHandle := (s.users sender).xHandle, toHandle := toHandle,
           timestamp := now, tweetUrl := tweetUrl }]
      processedTweets := updF s.processedTweets tweetUrl true }

/-- View `getUserByHandle(_handle)` as read by `requester` (`msg.sender`). -/
def getUserByHandle (s : KState) (requester : Nat) (handle : String) :
    Except KErr User :=
  if s.handleToAddress handle = 0 then .error .userNotFound
  else if s.privateProfiles (s.handleToAddress handle) = true ∧
          requester ≠ s.handleToAddress handle then .error .profilePrivate
  else .ok (s.users (s.handleToAddress handle))

/-- View `getUserByAddress(_user)` as read by `requester` (`msg.sender`). -/
def getUserByAddress (s : KState) (requester target : Nat) :
    Except KErr User :=
  if (s.users target).isRegistered = false then .error .notRegistered
  else if s.privateProfiles target = true ∧ requester ≠ target then
    .error .profilePrivate
  else .ok (s.users target)

/-- View `isHandleAvailable(_handle)`: unbound, not retired and
character-set valid.  (The contract performs no length check here.) -/
def isHandleAvailable (s : KState) (handle : String) : Bool :=
  decide (s.handleToAddress handle = 0) &&
  !s.deletedHandles handle &&
  isValidHandle handle

/-- View `getUserKudos(_handle)`: resolves the handle and returns the
`kudosReceived` counter.  The contract performs no privacy check in
this function. -/
def getUserKudos (s : KState) (handle : String) : Except KErr Nat :=
  if s.handleToAddress handle = 0 then .error .userNotFound
  else .ok (s.users (s.handleToAddress handle)).kudosReceived

/-- The per-address eligibility filter of `getLeaderboard`: currently
registered, no pending deletion request, and not privacy-flagged. -/
def lbEligible (s : KState) (a : Nat) : Bool :=
  (s.users a).isRegistered &&
  decide ((s.users a).deletionRequestedAt = 0) &&
  !s.privateProfiles a

/-- One iteration of `getLeaderboard`'s unique-user scan over a
history entry: both existence flags are computed before either
insertion, exactly as in the Solidity loop body. -/
def lbInsert (s : KState) (uniq : List Nat) (tx : KudosTransaction) :
    List Nat :=
  let fromExists := uniq.contains tx.fromAddr
  let toExists := uniq.contains tx.toAddr
  let uniq1 :=
    if !fromExists && lbEligible s tx.fromAddr then uniq ++ [tx.fromAddr]
    else uniq
  if !toExists && lbEligible s tx.toAddr then uniq1 ++ [tx.toAddr] else uniq1

/-- The `uniqueUsers` prefix built by `getLeaderboard`'s first loop. -/
def uniqueLbUsers (s : KState) : List Nat :=
  s.kudosHistory.foldl (lbInsert s) []

/-- One inner pass of `getLeaderboard`'s bubble sort, limited to `m`
adjacent comparisons; a pair is swapped when the left key is strictly
smaller (descending sort by `kudosReceived`). -/
def bubblePass (key : Nat → Nat) : Nat → List Nat → List Nat
  | _, [] => []
  | _, [a] => [a]
  | 0, l => l
  | m + 1, a :: b :: rest =>
    if key a < key b then b :: bubblePass key m (a :: rest)
    else a :: bubblePass key m (b :: rest)

/-- The outer loop of `getLeaderboard`'s bubble sort: with budget
`c + 1` it performs a pass of `c + 1` comparisons and recurses with
budget `c`, matching the Solidity bounds (`i + 1 < n` outer,
`j + i + 1 < n` inner). -/
def bubbleSort (key : Nat → Nat) : Nat → List Nat → List Nat
  | 0, l => l
  | c + 1, l => bubbleSort key c (bubblePass key (c + 1) l)

/-- View `getLeaderboard(_limit)`: scan the history for distinct eligible
identities, bubble-sort them descending by `kudosReceived`, truncate
to `_limit`, and project out `(handles, kudosReceived, addresses)`. -/
def getLeaderboard (s : KState) (limit : Nat) :
    List String × List Nat × List Nat :=
  if s.kudosHistory.length = 0 then ([], [], [])
  else
    let uniq := uniqueLbUsers s
    let key := fun a => (s.users a).kudosReceived
    let sorted := bubbleSort key (uniq.length - 1) uniq
    let resultCount := if limit < sorted.length then limit else sorted.length
    let rows := sorted.take resultCount
    (rows.map (fun a => (s.users a).xHandle), rows.map key, rows)

/-- One external call to a state-mutating entry point of the
contract, with its `msg.sender` and `block.timestamp` arguments. -/
inductive Op where
  | register (sender now : Nat) (xHandle : String)
  | requestDel (sender now : Nat)
  | cancelDel (sender : Nat)
  | execDel (target now : Nat)
  | delNow (sender now : Nat)
  | setPriv (sender : Nat) (isPrivate : Bool)
  | give (sender now : Nat) (toHandle tweetUrl : String)

/-- Dispatch an operation against the storage. -/
def applyOp (s : KState) : Op → Except KErr KState
  | .register sender now h => registerUser s sender now h
  | .requestDel sender now => requestAccountDeletion s sender now
  | .cancelDel sender => cancelAccountDeletion s sender
  | .execDel target now => executeAccountDeletion s target now
  | .delNow sender now => deleteAccountImmediately s sender now
  | .setPriv sender p => setProfilePrivacy s sender p
  | .give sender now toH url => giveKudos s sender now toH url

/-- The EVM guarantees that the `msg.sender` of an external call is
never the zero address (`executeAccountDeletion`'s *target* is an
arbitrary argument, so it is unconstrained). -/
def senderOk : Op → Prop
  | .register sender _ _ => sender ≠ 0
  | .requestDel sender _ => sender ≠ 0
  | .cancelDel sender => sender ≠ 0
  | .execDel _ _ => True
  | .delNow sender _ => sender ≠ 0
  | .setPriv sender _ => sender ≠ 0
  | .give sender _ _ _ => sender ≠ 0

/-- Relation `Steps s t`: storage `t` is obtained from storage `s` by a finite
sequence of successful external calls (reverting calls change
nothing, so only `.ok` outcomes advance the state). -/
inductive Steps : KState → KState → Prop where
  | refl (s : KState) : Steps s s
  | tail {s t t' : KState} (op : Op) : Steps s t → senderOk op →
      applyOp t op = .ok t' → Steps s t'

/-- A storage reachable from a fresh deployment. -/
def Reachable (s : KState) : Prop := Steps initState s

/-- Mutual consistency of the account registry and the handle index:
the zero address is never registered, every registered account's
handle resolves back to it, and every bound handle points to a
registered account carrying exactly that handle. -/
def GoodState (s : KState) : Prop :=
  (s.users 0).isRegistered = false ∧
  (∀ a, (s.users a).isRegistered = true →
    s.handleToAddress (s.users a).xHandle = a) ∧
  (∀ h, s.handleToAddress h ≠ 0 →
    (s.users (s.handleToAddress h)).isRegistered = true ∧
    (s.users (s.handleToAddress h)).xHandle = h)

/-- Unwrap a successful call; used only to build concrete test
scenarios (all uses are on calls proved successful by `rfl`). -/
def okOr (x : Except KErr KState) : KState :=
  match x with
  | .ok s => s
  | .error _ => initState

/-- Scenario storage: address 1 registered handle "alice" at time 10. -/
def exStA : KState := okOr (registerUser initState 1 10 "alice")

/-- Scenario storage: then address 2 registered handle "bob". -/
def exStAB : KState := okOr (registerUser exStA 2 10 "bob")

/-- Scenario storage: then address 1 gave kudos to "bob" citing
tweet "ref1". -/
def exStK : KState := okOr (giveKudos exStAB 1 11 "bob" "ref1")

/-- Scenario storage: then address 1 flagged its profile private. -/
def exStPriv : KState := okOr (setProfilePrivacy exStK 1 true)

/-- Scenario storage: address 1 (registered "alice" at 10) requested
deletion at time 20. -/
def exStReq : KState := okOr (requestAccountDeletion exStA 1 20)

/-- Scenario storage: address 1 (registered "alice" at 10) deleted its
account immediately at time 20. -/
def exStDel : KState := okOr (deleteAccountImmediately exStA 1 20)

@[simp]
theorem updF_apply_same {κ α : Type} [DecidableEq κ] (f : κ → α) (k : κ)
    (v : α) : updF f k v k = v := by
  simp [updF]

theorem updF_apply_ne {κ α : Type} [DecidableEq κ] (f : κ → α) {k x : κ}
    (v : α) (h : x ≠ k) : updF f k v x = f x := by
  simp [updF, h]

/-- Extract from a successful external call of any state machine
relation: a property preserved by every successful call is preserved
along `Steps`. -/
theorem Steps.preserve {P : KState → Prop}
    (hP : ∀ s op s', senderOk op → applyOp s op = .ok s' → P s → P s')
    {s t : KState} (h : Steps s t) : P s → P t := by
  induction h with
  | refl => exact id
  | tail op _ hok happ ih => exact fun hs => hP _ op _ hok happ (ih hs)

/-- Inversion of a successful `registerUser` call: all `require`s
passed and the storage has the post-call shape. -/
theorem registerUser_ok_inv {s s' : KState} {sender now : Nat}
    {xHandle : String} (h : registerUser s sender now xHandle = .ok s') :
    MIN_HANDLE_LENGTH ≤ utf8Len xHandle ∧
    utf8Len xHandle ≤ MAX_HANDLE_LENGTH ∧
    isValidHandle xHandle = true ∧
    (s.users sender).isRegistered = false ∧
    s.handleToAddress xHandle = 0 ∧
    s.deletedHandles xHandle = false ∧
    (s.lastDeletionTime sender = 0 ∨
      s.lastDeletionTime sender + REREGISTRATION_COOLDOWN ≤ now) ∧
    s' = { s with
      users := updF s.users sender
        { xHandle := xHandle, kudosReceived := 0, kudosGiven := 0,
          isRegistered := true, registeredAt := now, deletionRequestedAt := 0 }
      handleToAddress := updF s.handleToAddress xHandle sender } := by
  unfold registerUser at h
  split_ifs at h with h1 h2 h3 h4 h5 h6 h7
  injection h with h
  refine ⟨Nat.le_of_not_lt h1, Nat.le_of_not_lt h2, ?_, ?_, ?_, ?_, ?_, h.symm⟩
  · simpa using h3
  · simpa using h4
  · simpa using h5
  · simpa using h6
  · rcases Nat.eq_zero_or_pos (s.lastDeletionTime sender) with hz | hpos
    · exact Or.inl hz
    · exact Or.inr (Nat.le_of_not_lt fun hlt => h7 ⟨hpos, hlt⟩)

/-- Inversion of a successful `giveKudos` call. -/
theorem giveKudos_ok_inv {s s' : KState} {sender now : Nat}
    {toHandle tweetUrl : String}
    (h : giveKudos s sender now toHandle tweetUrl = .ok s') :
    (s.users sender).isRegistered = true ∧
    (s.users sender).deletionRequestedAt = 0 ∧
    utf8Len tweetUrl ≠ 0 ∧
    s.processedTweets tweetUrl = false ∧
    s.handleToAddress toHandle ≠ 0 ∧
    s.handleToAddress toHandle ≠ sender ∧
    (s.users (s.handleToAddress toHandle)).deletionRequestedAt = 0 ∧
    s' = { s with
      users :=
        updF (updF s.users sender
          { s.users sender with kudosGiven := (s.users sender).kudosGiven + 1 })
          (s.handleToAddress toHandle)
          { updF s.users sender
              { s.users sender with
                kudosGiven := (s.users sender).kudosGiven + 1 }
              (s.handleToAddress toHandle) with
            kudosReceived :=
              (updF s.users sender
                { s.users sender with
                  kudosGiven := (s.users sender).kudosGiven + 1 }
                (s.handleToAddress toHandle)).kudosReceived + 1 }
      kudosHistory := s.kudosHistory ++
        [{ fromAddr := sender, toAddr := s.handleToAddress toHandle,
           fromHandle := (s.users sender).xHandle, toHandle := toHandle,
           timestamp := now, tweetUrl := tweetUrl }]
      processedTweets := updF s.processedTweets tweetUrl true } := by
  unfold giveKudos at h
  split_ifs at h with h1 h2 h3 h4 h5 h6 h7
  injection h with h
  refine ⟨by simpa using h1, by simpa using h2, h3, by simpa using h4, h5, h6,
    by simpa using h7, h.symm⟩

/-- Inversion of a successful `requestAccountDeletion` call. -/
theorem requestDel_ok_inv {s s' : KState} {sender now : Nat}
    (h : requestAccountDeletion s sender now = .ok s') :
    (s.users sender).isRegistered = true ∧
    (s.users sender).deletionRequestedAt = 0 ∧
    s' = { s with
      users := updF s.users sender
        { s.users sender with deletionRequestedAt := now } } := by
  unfold requestAccountDeletion at h
  split_ifs at h with h1 h2
  injection h with h
  exact ⟨by simpa using h1, by simpa using h2, h.symm⟩

/-- Inversion of a successful `cancelAccountDeletion` call. -/
theorem cancelDel_ok_inv {s s' : KState} {sender : Nat}
    (h : cancelAccountDeletion s sender = .ok s') :
    (s.users sender).isRegistered = true ∧
    (s.users sender).deletionRequestedAt ≠ 0 ∧
    s' = { s with
      users := updF s.users sender
        { s.users sender with deletionRequestedAt := 0 } } := by
  unfold cancelAccountDeletion at h
  split_ifs at h with h1 h2
  injection h with h
  exact ⟨by simpa using h1, h2, h.symm⟩

/-- Inversion of a successful `executeAccountDeletion` call. -/
theorem execDel_ok_inv {s s' : KState} {target now : Nat}
    (h : executeAccountDeletion s target now = .ok s') :
    (s.users target).isRegistered = true ∧
    (s.users target).deletionRequestedAt ≠ 0 ∧
    (s.users target).deletionRequestedAt + DELETION_GRACE_PERIOD ≤ now ∧
    s' = { s with
      deletedHandles := updF s.deletedHandles (s.users target).xHandle true
      lastDeletionTime := updF s.lastDeletionTime target now
      handleToAddress := updF s.handleToAddress (s.users target).xHandle 0
      users := updF s.users target defaultUser
      privateProfiles := updF s.privateProfiles target false } := by
  unfold executeAccountDeletion at h
  split_ifs at h with h1 h2 h3
  injection h with h
  exact ⟨by simpa using h1, h2, Nat.le_of_not_lt h3, h.symm⟩

/-- Inversion of a successful `deleteAccountImmediately` call. -/
theorem delNow_ok_inv {s s' : KState} {sender now : Nat}
    (h : deleteAccountImmediately s sender now = .ok s') :
    (s.users sender).isRegistered = true ∧
    s' = { s with
      deletedHandles := updF s.deletedHandles (s.users sender).xHandle true
      lastDeletionTime := updF s.lastDeletionTime sender now
      handleToAddress := updF s.handleToAddress (s.users sender).xHandle 0
      users := updF s.users sender defaultUser
      privateProfiles := updF s.privateProfiles sender false } := by
  unfold deleteAccountImmediately at h
  split_ifs at h with h1
  injection h with h
  exact ⟨by simpa using h1, h.symm⟩

/-- Inversion of a successful `setProfilePrivacy` call. -/
theorem setPriv_ok_inv {s s' : KState} {sender : Nat} {p : Bool}
    (h : setProfilePrivacy s sender p = .ok s') :
    (s.users sender).isRegistered = true ∧
    (s.users sender).deletionRequestedAt = 0 ∧
    s' = { s with privateProfiles := updF s.privateProfiles sender p } := by
  unfold setProfilePrivacy at h
  split_ifs at h with h1 h2
  injection h with h
  exact ⟨by simpa using h1, by simpa using h2, h.symm⟩

/-- No entry point ever clears a consumed tweet reference: once
`processedTweets[u]` is set, every successful call preserves it. -/
theorem applyOp_preserves_processed {s s' : KState} {op : Op} {u : String}
    (happ : applyOp s op = .ok s') (hp : s.processedTweets u = true) :
    s'.processedTweets u = true := by
  cases op with
  | register sender now h =>
    obtain ⟨-, -, -, -, -, -, -, rfl⟩ := registerUser_ok_inv happ
    exact hp
  | requestDel sender now =>
    obtain ⟨-, -, rfl⟩ := requestDel_ok_inv happ
    exact hp
  | cancelDel sender =>
    obtain ⟨-, -, rfl⟩ := cancelDel_ok_inv happ
    exact hp
  | execDel target now =>
    obtain ⟨-, -, -, rfl⟩ := execDel_ok_inv happ
    exact hp
  | delNow sender now =>
    obtain ⟨-, rfl⟩ := delNow_ok_inv happ
    exact hp
  | setPriv sender p =>
    obtain ⟨-, -, rfl⟩ := setPriv_ok_inv happ
    exact hp
  | give sender now toH url =>
    obtain ⟨-, -, -, -, -, -, -, rfl⟩ := giveKudos_ok_inv happ
    by_cases hu : u = url
    · subst hu; simp
    · simpa [updF_apply_ne _ _ hu] using hp

/-- Once a handle is retired it stays retired and unbound: each
successful call preserves `deletedHandles[h] ∧ handleToAddress[h] == 0`. -/
theorem applyOp_preserves_retired {s s' : KState} {op : Op} {h : String}
    (happ : applyOp s op = .ok s')
    (hp : s.deletedHandles h = true ∧ s.handleToAddress h = 0) :
    s'.deletedHandles h = true ∧ s'.handleToAddress h = 0 := by
  cases op with
  | register sender now hx =>
    obtain ⟨-, -, -, -, -, hret, -, rfl⟩ := registerUser_ok_inv happ
    have hne : h ≠ hx := fun he => by rw [he] at hp; rw [hp.1] at hret; cases hret
    exact ⟨hp.1, by simpa [updF_apply_ne _ _ hne] using hp.2⟩
  | requestDel sender now =>
    obtain ⟨-, -, rfl⟩ := requestDel_ok_inv happ
    exact hp
  | cancelDel sender =>
    obtain ⟨-, -, rfl⟩ := cancelDel_ok_inv happ
    exact hp
  | execDel target now =>
    obtain ⟨-, -, -, rfl⟩ := execDel_ok_inv happ
    by_cases hx : h = (s.users target).xHandle
    · subst hx; simp
    · simp only [updF_apply_ne _ _ hx]
      exact hp
  | delNow sender now =>
    obtain ⟨-, rfl⟩ := delNow_ok_inv happ
    by_cases hx : h = (s.users sender).xHandle
    · subst hx; simp
    · simp only [updF_apply_ne _ _ hx]
      exact hp
  | setPriv sender p =>
    obtain ⟨-, -, rfl⟩ := setPriv_ok_inv happ
    exact hp
  | give sender now toH url =>
    obtain ⟨-, -, -, -, -, -, -, rfl⟩ := giveKudos_ok_inv happ
    exact hp

/-- Note `GoodState` only looks at registration flags, stored handles and
the handle index, so it transfers across any storage change that
leaves those three views pointwise unchanged. -/
theorem goodState_congr {s s' : KState} (hg : GoodState s)
    (hu : ∀ a, (s'.users a).isRegistered = (s.users a).isRegistered ∧
      (s'.users a).xHandle = (s.users a).xHandle)
    (hh : ∀ h, s'.handleToAddress h = s.handleToAddress h) : GoodState s' := by
  obtain ⟨hg0, hg1, hg2⟩ := hg
  refine ⟨(hu 0).1.trans hg0, ?_, ?_⟩
  · intro a ha
    rw [(hu a).1] at ha
    rw [(hu a).2, hh]
    exact hg1 a ha
  · intro h hne
    rw [hh] at hne ⊢
    refine ⟨(hu _).1.trans (hg2 h hne).1, (hu _).2.trans (hg2 h hne).2⟩

/-- A mapping write that keeps the written slot's registration flag
and stored handle leaves both pointwise views of `users` unchanged. -/
theorem updF_users_keep (f : Nat → User) (k : Nat) (v : User)
    (hreg : v.isRegistered = (f k).isRegistered)
    (hxh : v.xHandle = (f k).xHandle) :
    ∀ a, ((updF f k v) a).isRegistered = (f a).isRegistered ∧
      ((updF f k v) a).xHandle = (f a).xHandle := by
  intro a
  by_cases h : a = k
  · subst h; simp [hreg, hxh]
  · simp [updF_apply_ne _ _ h]

/-- Account deletion (shared tail of `executeAccountDeletion` and
`deleteAccountImmediately`) preserves `GoodState`. -/
theorem goodState_delete {s : KState} {target : Nat} {now : Nat}
    (hreg : (s.users target).isRegistered = true)
    (hg : GoodState s) :
    GoodState { s with
      deletedHandles := updF s.deletedHandles (s.users target).xHandle true
      lastDeletionTime := updF s.lastDeletionTime target now
      handleToAddress := updF s.handleToAddress (s.users target).xHandle 0
      users := updF s.users target defaultUser
      privateProfiles := updF s.privateProfiles target false } := by
  obtain ⟨hg0, hg1, hg2⟩ := hg
  have htz : target ≠ 0 := fun he => by rw [he, hg0] at hreg; cases hreg
  refine ⟨?_, ?_, ?_⟩
  · simpa [updF_apply_ne _ _ (Ne.symm htz)] using hg0
  · intro a ha
    simp only at ha ⊢
    by_cases hat : a = target
    · subst hat
      rw [updF_apply_same] at ha
      cases ha
    · rw [updF_apply_ne _ _ hat] at ha ⊢
      have hxa : (s.users a).xHandle ≠ (s.users target).xHandle := by
        intro he
        have h1 := hg1 a ha
        have h2 := hg1 target hreg
        rw [he, h2] at h1
        exact hat h1.symm
      rw [updF_apply_ne _ _ hxa]
      exact hg1 a ha
  · intro h hne
    simp only at hne ⊢
    by_cases hx : h = (s.users target).xHandle
    · subst hx
      rw [updF_apply_same] at hne
      exact absurd rfl hne
    · rw [updF_apply_ne _ _ hx] at hne ⊢
      have h2 := hg2 h hne
      have hnt : s.handleToAddress h ≠ target := by
        intro he
        rw [he] at h2
        exact hx h2.2.symm
      rw [updF_apply_ne _ _ hnt]
      exact h2

/-- Every successful external call preserves `GoodState`. -/
theorem applyOp_preserves_good {s s' : KState} {op : Op}
    (hok : senderOk op) (happ : applyOp s op = .ok s')
    (hg : GoodState s) : GoodState s' := by
  obtain ⟨hg0, hg1, hg2⟩ := hg
  cases op with
  | register sender now hx =>
    obtain ⟨-, -, -, hunreg, hfree, -, -, rfl⟩ := registerUser_ok_inv happ
    have hs0 : sender ≠ 0 := hok
    refine ⟨?_, ?_, ?_⟩
    · simpa [updF_apply_ne _ _ (Ne.symm hs0)] using hg0
    · intro a ha
      simp only at ha ⊢
      by_cases has : a = sender
      · subst has
        simp
      · rw [updF_apply_ne _ _ has] at ha ⊢
        have h1 := hg1 a ha
        have hax : (s.users a).xHandle ≠ hx := by
          intro he
          rw [he, hfree] at h1
          rw [← h1] at ha
          rw [hg0] at ha
          cases ha
        rw [updF_apply_ne _ _ hax]
        exact h1
    · intro h hne
      simp only at hne ⊢
      by_cases hhx : h = hx
      · subst hhx
        simp
      · rw [updF_apply_ne _ _ hhx] at hne ⊢
        have h2 := hg2 h hne
        have hns : s.handleToAddress h ≠ sender := by
          intro he
          rw [he, hunreg] at h2
          cases h2.1
        rw [updF_apply_ne _ _ hns]
        exact h2
  | requestDel sender now =>
    obtain ⟨-, -, rfl⟩ := requestDel_ok_inv happ
    exact goodState_congr ⟨hg0, hg1, hg2⟩ (updF_users_keep _ _ _ rfl rfl)
      (fun _ => rfl)
  | cancelDel sender =>
    obtain ⟨-, -, rfl⟩ := cancelDel_ok_inv happ
    exact goodState_congr ⟨hg0, hg1, hg2⟩ (updF_users_keep _ _ _ rfl rfl)
      (fun _ => rfl)
  | execDel target now =>
    obtain ⟨hreg, -, -, rfl⟩ := execDel_ok_inv happ
    exact goodState_delete hreg ⟨hg0, hg1, hg2⟩
  | delNow sender now =>
    obtain ⟨hreg, rfl⟩ := delNow_ok_inv happ
    exact goodState_delete hreg ⟨hg0, hg1, hg2⟩
  | setPriv sender p =>
    obtain ⟨-, -, rfl⟩ := setPriv_ok_inv happ
    exact goodState_congr ⟨hg0, hg1, hg2⟩ (fun _ => ⟨rfl, rfl⟩) (fun _ => rfl)
  | give sender now toH url =>
    obtain ⟨-, -, -, -, -, -, -, rfl⟩ := giveKudos_ok_inv happ
    refine goodState_congr ⟨hg0, hg1, hg2⟩ ?_ (fun _ => rfl)
    intro a
    constructor <;> (simp only [updF]; split <;> split <;> simp_all)

/-- Claim C3, counterexample.  "A `giveKudos` call by `id` whose
`toHandle` resolves to `id` itself always fails with the `SelfKudos`
error, regardless of registration state" is false: when the caller is
pending deletion, the reference is empty, or the reference was already
consumed, the call fails with a different error, because the
`onlyRegistered` modifier and the URL checks run before the
self-recipient check. -/
theorem c3_counterexample :
    exStA.handleToAddress "alice" = 1 ∧
    giveKudos exStA 1 12 "alice" "" = .error .tweetUrlRequired ∧
    exStReq.handleToAddress "alice" = 1 ∧
    giveKudos exStReq 1 30 "alice" "x" = .error .pendingDeletion ∧
    exStK.handleToAddress "alice" = 1 ∧
    giveKudos exStK 1 12 "alice" "ref1" = .error .tweetAlreadyProcessed ∧
    KErr.tweetUrlRequired ≠ KErr.selfKudos ∧
    KErr.pendingDeletion ≠ KErr.selfKudos ∧
    KErr.tweetAlreadyProcessed ≠ KErr.selfKudos :=
  ⟨rfl, rfl, rfl, rfl, rfl, rfl, by decide, by decide, by decide⟩

/-- Claim C3 (amended): a `giveKudos` call by a *registered,
not-pending* caller with a *nonempty, unconsumed* reference whose
`toHandle` resolves to the caller itself fails with `SelfKudos`. -/
theorem c3_self_kudos (s : KState) (id now : Nat) (toH url : String)
    (hreg : (s.users id).isRegistered = true)
    (hpend : (s.users id).deletionRequestedAt = 0)
    (hurl : utf8Len url ≠ 0)
    (hproc : s.processedTweets url = false)
    (hres : s.handleToAddress toH = id) (h0 : id ≠ 0) :
    giveKudos s id now toH url = .error .selfKudos := by
  unfold giveKudos
  rw [hres]
  simp [hreg, hpend, hurl, hproc, h0]

/-- Witness for C3: a registered caller giving kudos to its own
handle with a fresh reference gets `SelfKudos`. -/
theorem c3_self_kudos_witness :
    giveKudos exStA 1 12 "alice" "tweet1" = .error .selfKudos :=
  c3_self_kudos exStA 1 12 "alice" "tweet1" rfl rfl (by decide) rfl rfl
    (by decide)

/-- Claim C6, counterexample.  "An account whose deletion request is
pending may still toggle its privacy flag" is false: `setProfilePrivacy`
is guarded by `onlyRegistered`, which also requires
`deletionRequestedAt == 0`, so a pending-deletion account's call
reverts with "Account pending deletion". -/
theorem c6_counterexample :
    requestAccountDeletion exStA 1 20 = .ok exStReq ∧
    (exStReq.users 1).isRegistered = true ∧
    (exStReq.users 1).deletionRequestedAt = 20 ∧
    setProfilePrivacy exStReq 1 true = .error .pendingDeletion :=
  ⟨rfl, rfl, rfl, rfl⟩

/-- Claim C6 (amended): `setProfilePrivacy` requires the caller to be
registered *and* not pending deletion; a registered caller with a
pending deletion request fails with the pending-deletion error, and a
registered caller without one succeeds and updates the flag. -/
theorem c6_privacy_toggle (s : KState) (sender : Nat) (p : Bool)
    (hreg : (s.users sender).isRegistered = true) :
    ((s.users sender).deletionRequestedAt ≠ 0 →
      setProfilePrivacy s sender p = .error .pendingDeletion) ∧
    ((s.users sender).deletionRequestedAt = 0 →
      setProfilePrivacy s sender p =
        .ok { s with privateProfiles := updF s.privateProfiles sender p }) := by
  constructor <;> intro hpend <;> simp [setProfilePrivacy, hreg, hpend]

/-- Witness for C6: the pending-deletion account of the scenario
cannot toggle privacy. -/
theorem c6_privacy_toggle_witness :
    setProfilePrivacy exStReq 1 true = .error .pendingDeletion :=
  (c6_privacy_toggle exStReq 1 true rfl).1 (by decide)

/-- Claim C7, counterexample.  "Every read exposing another identity's
counters fails when the target is private" is false for
`getUserKudos`: it performs no privacy check and returns the private
target's `kudosReceived` to any requester. -/
theorem c7_counterexample :
    setProfilePrivacy exStK 1 true = .ok exStPriv ∧
    exStPriv.privateProfiles 1 = true ∧
    exStPriv.handleToAddress "alice" = 1 ∧
    getUserKudos exStPriv "alice" = .ok 0 :=
  ⟨rfl, rfl, rfl, rfl⟩

/-- Claim C7 (amended): `getUserByHandle` and `getUserByAddress`
reject with the profile-private error whenever the target's privacy
flag is set and the requester is not the target, while `getUserKudos`
performs no privacy check and returns the target's `kudosReceived`
whenever the handle is bound. -/
theorem c7_privacy_gate (s : KState) (h : String) (a r : Nat)
    (hres : s.handleToAddress h = a) (ha : a ≠ 0)
    (hreg : (s.users a).isRegistered = true)
    (hpriv : s.privateProfiles a = true) (hr : r ≠ a) :
    getUserByHandle s r h = .error .profilePrivate ∧
    getUserByAddress s r a = .error .profilePrivate ∧
    getUserKudos s h = .ok (s.users a).kudosReceived := by
  refine ⟨?_, ?_, ?_⟩
  · unfold getUserByHandle
    rw [hres]
    simp [ha, hpriv, hr]
  · unfold getUserByAddress
    simp [hreg, hpriv, hr]
  · unfold getUserKudos
    rw [hres]
    simp [ha]

/-- Witness for C7: in the scenario storage, address 2 asking about
private "alice" is rejected by `getUserByHandle`. -/
theorem c7_privacy_gate_witness :
    getUserByHandle exStPriv 2 "alice" = .error .profilePrivate :=
  (c7_privacy_gate exStPriv "alice" 1 2 rfl (by decide) rfl rfl
    (by decide)).1

/-- Claim C9, counterexample.  `isHandleAvailable` does not check
handle length, so "ab" (2 bytes, rejected by `registerUser` as too
short) is reported available in the fresh storage. -/
theorem c9_counterexample :
    isHandleAvailable initState "ab" = true ∧
    utf8Len "ab" < MIN_HANDLE_LENGTH ∧
    registerUser initState 1 10 "ab" = .error .handleTooShort :=
  ⟨rfl, by decide, rfl⟩

/-- Claim C9 (amended): `isHandleAvailable(handle)` returns true iff
the handle is unbound, not retired, and every character is in
`[A-Za-z0-9_]` — the 3–15 length bound of `registerUser` is *not*
part of the check. -/
theorem c9_handle_available_iff (s : KState) (h : String) :
    isHandleAvailable s h = true ↔
      (s.handleToAddress h = 0 ∧ s.deletedHandles h = false ∧
        ∀ c ∈ h.data, isKudosChar c = true) := by
  unfold isHandleAvailable isValidHandle
  simp [List.all_eq_true, Bool.and_eq_true, decide_eq_true_eq,
    Bool.not_eq_true', and_assoc]

/-- Witness for C9: a well-formed unbound handle is available. -/
theorem c9_handle_available_witness :
    isHandleAvailable initState "abc" = true :=
  (c9_handle_available_iff initState "abc").mpr ⟨rfl, rfl, by decide⟩

/-- Claim C1, counterexample.  "Every later `giveKudos` call with the
same `sourceReference`, by any sender, fails with `DuplicateReference`"
is false for an unregistered later sender: the `onlyRegistered`
modifier trips first, so address 3 repeating "ref1" gets
"User not registered" instead. -/
theorem c1_counterexample :
    giveKudos exStAB 1 11 "bob" "ref1" = .ok exStK ∧
    giveKudos exStK 3 12 "bob" "ref1" = .error .notRegistered ∧
    KErr.notRegistered ≠ KErr.tweetAlreadyProcessed :=
  ⟨rfl, rfl, by decide⟩

/-- Claim C1 (amended): once a `giveKudos` call succeeds with a given
`sourceReference`, every later call reusing that reference — by any
sender, with any recipient, in any state reachable from the success —
fails (reverting, hence changing no state); when the later caller is
registered and not pending deletion, the failure is specifically the
duplicate-reference error. -/
theorem c1_no_reference_reuse (s s1 s2 : KState) (sender now : Nat)
    (toH url : String) (hok : giveKudos s sender now toH url = .ok s1)
    (hsteps : Steps s1 s2) (sender2 now2 : Nat) (toH2 : String) :
    (∃ e, giveKudos s2 sender2 now2 toH2 url = .error e) ∧
    ((s2.users sender2).isRegistered = true →
      (s2.users sender2).deletionRequestedAt = 0 →
      giveKudos s2 sender2 now2 toH2 url = .error .tweetAlreadyProcessed) := by
  obtain ⟨-, -, hurl, -, -, -, -, rfl⟩ := giveKudos_ok_inv hok
  have hp0 : (updF s.processedTweets url true) url = true := by simp
  have hp2 : s2.processedTweets url = true :=
    Steps.preserve
      (fun _ op _ _ happ hp => applyOp_preserves_processed happ hp)
      hsteps hp0
  constructor
  · unfold giveKudos
    split_ifs with h1 h2
    any_goals exact ⟨_, rfl⟩
  · intro hreg hpend
    unfold giveKudos
    simp [hreg, hpend, hurl, hp2]

/-- Witness for C1: registered address 2 reusing "ref1" in the
scenario gets the duplicate-reference error. -/
theorem c1_no_reference_reuse_witness :
    giveKudos exStK 2 12 "alice" "ref1" = .error .tweetAlreadyProcessed :=
  (c1_no_reference_reuse exStAB exStK exStK 1 11 "bob" "ref1" rfl
    (Steps.refl _) 2 12 "alice").2 rfl rfl

/-- Claim C2 (confirmed): once a handle is retired by
`executeAccountDeletion` or `deleteAccountImmediately`, in every state
reachable from that point every `registerUser` call with that exact
handle — by any sender, at any time — fails, and the handle index
never binds the handle again. -/
theorem c2_retired_handle_permanent (s s0 s1 : KState) (u now : Nat)
    (h : String) (hh : h = (s.users u).xHandle)
    (hdel : executeAccountDeletion s u now = .ok s0 ∨
      deleteAccountImmediately s u now = .ok s0)
    (hsteps : Steps s0 s1) (sender now2 : Nat) :
    (∃ e, registerUser s1 sender now2 h = .error e) ∧
    s1.handleToAddress h = 0 := by
  have hP0 : s0.deletedHandles h = true ∧ s0.handleToAddress h = 0 := by
    rcases hdel with hd | hd
    · obtain ⟨-, -, -, rfl⟩ := execDel_ok_inv hd
      subst hh
      simp
    · obtain ⟨-, rfl⟩ := delNow_ok_inv hd
      subst hh
      simp
  have hP1 : s1.deletedHandles h = true ∧ s1.handleToAddress h = 0 :=
    Steps.preserve
      (fun _ op _ _ happ hp => applyOp_preserves_retired happ hp)
      hsteps hP0
  refine ⟨?_, hP1.2⟩
  unfold registerUser
  split_ifs with h1 h2 h3 h4 h5 h6 h7
  any_goals exact ⟨_, rfl⟩
  exact absurd hP1.1 h6

/-- Witness for C2: after "alice" is retired by immediate deletion, a
fresh address cannot register "alice" and the index slot is vacant. -/
theorem c2_retired_handle_permanent_witness :
    (∃ e, registerUser exStDel 3 50 "alice" = .error e) ∧
    exStDel.handleToAddress "alice" = 0 :=
  c2_retired_handle_permanent exStA exStDel exStDel 1 20 "alice" rfl
    (Or.inr rfl) (Steps.refl _) 3 50

/-- Claim C4 (amended): after a deletion request at a nonzero time
`t0`, `executeAccountDeletion` fails with the grace-period error at
every time strictly before `t0 + 7 days`; at or after `t0 + 7 days` it
succeeds, and a second call on the resulting state fails with the
*user-not-registered* error (the registry entry is already gone, so
the registration `require` trips before the pending-deletion one). -/
theorem c4_deletion_lifecycle (s s' : KState) (id t0 : Nat)
    (ht0 : 0 < t0) (hreq : requestAccountDeletion s id t0 = .ok s') :
    (∀ t, t < t0 + DELETION_GRACE_PERIOD →
      executeAccountDeletion s' id t = .error .gracePeriodNotExpired) ∧
    (∀ t, t0 + DELETION_GRACE_PERIOD ≤ t →
      ∃ s2, executeAccountDeletion s' id t = .ok s2 ∧
        ∀ t2, executeAccountDeletion s2 id t2 = .error .notRegistered) := by
  obtain ⟨hreg, -, rfl⟩ := requestDel_ok_inv hreq
  have ht0' : t0 ≠ 0 := Nat.pos_iff_ne_zero.mp ht0
  constructor
  · intro t ht
    unfold executeAccountDeletion
    simp [hreg, ht0', ht]
  · intro t ht
    have hex : ∃ s2, executeAccountDeletion
        { s with
          users :=
            updF s.users id ({ s.users id with deletionRequestedAt := t0 }) }
        id t = .ok s2 := by
      unfold executeAccountDeletion
      simp [hreg, ht0', Nat.not_lt.mpr ht]
    obtain ⟨s2, hs2⟩ := hex
    refine ⟨s2, hs2, ?_⟩
    obtain ⟨-, -, -, rfl⟩ := execDel_ok_inv hs2
    intro t2
    unfold executeAccountDeletion
    simp [defaultUser]

/-- Witness for C4: in the scenario (request at 20), execution at time
100 is still inside the grace period. -/
theorem c4_deletion_lifecycle_witness :
    executeAccountDeletion exStReq 1 100 = .error .gracePeriodNotExpired :=
  (c4_deletion_lifecycle exStA exStReq 1 20 (by decide) rfl).1 100 (by decide)

/-- Claim C4, counterexample.  The claim's "a second
`executeAccountDeletion` call fails with a no-pending-deletion error"
is false: after the first execution deletes the registry entry, the
second call reverts with "User not registered". -/
theorem c4_counterexample :
    ∃ s2, executeAccountDeletion exStReq 1 (20 + 7 * 86400) = .ok s2 ∧
      executeAccountDeletion s2 1 (21 + 7 * 86400) = .error .notRegistered ∧
      KErr.notRegistered ≠ KErr.noDeletionPending :=
  ⟨_, rfl, rfl, by decide⟩

/-- Claim C5, counterexample.  "A registerUser call at or after
`T + 30 days` succeeds" is false (the deleted account's own handle is
retired forever), and a pre-cooldown call need not fail with the
cooldown error (handle validation runs first). -/
theorem c5_counterexample :
    deleteAccountImmediately exStA 1 20 = .ok exStDel ∧
    exStDel.lastDeletionTime 1 = 20 ∧
    registerUser exStDel 1 (20 + REREGISTRATION_COOLDOWN) "alice" =
      .error .handleRetired ∧
    registerUser exStDel 1 25 "ab" = .error .handleTooShort ∧
    KErr.handleRetired ≠ KErr.cooldownActive ∧
    KErr.handleTooShort ≠ KErr.cooldownActive :=
  ⟨rfl, rfl, rfl, rfl, by decide, by decide⟩

/-- Claim C5 (amended): for an identity whose last deletion happened
at a nonzero time `T`, a `registerUser` call for a handle that passes
every validation and availability check fails with the cooldown error
strictly before `T + 30 days`, and succeeds at or after `T + 30 days`. -/
theorem c5_cooldown (s : KState) (id T t : Nat) (h : String)
    (hT : 0 < T) (hld : s.lastDeletionTime id = T)
    (hmin : MIN_HANDLE_LENGTH ≤ utf8Len h)
    (hmax : utf8Len h ≤ MAX_HANDLE_LENGTH)
    (hfmt : isValidHandle h = true)
    (hreg : (s.users id).isRegistered = false)
    (hfree : s.handleToAddress h = 0)
    (hret : s.deletedHandles h = false) :
    (t < T + REREGISTRATION_COOLDOWN →
      registerUser s id t h = .error .cooldownActive) ∧
    (T + REREGISTRATION_COOLDOWN ≤ t →
      registerUser s id t h = .ok { s with
        users := updF s.users id
          { xHandle := h, kudosReceived := 0, kudosGiven := 0,
            isRegistered := true, registeredAt := t,
            deletionRequestedAt := 0 }
        handleToAddress := updF s.handleToAddress h id }) := by
  constructor <;> intro ht <;> unfold registerUser <;>
    simp [Nat.not_lt.mpr hmin, Nat.not_lt.mpr hmax, hfmt, hreg, hfree,
      hret, hld, hT, ht, Nat.not_lt.mpr ht]

/-- Witness for C5: five seconds after deleting at time 20, the
identity cannot register the fresh handle "carol". -/
theorem c5_cooldown_witness :
    registerUser exStDel 1 25 "carol" = .error .cooldownActive :=
  (c5_cooldown exStDel 1 20 25 "carol" (by decide) rfl (by decide)
    (by decide) (by decide) rfl rfl rfl).1 (by decide)

/-- Claim C10 (confirmed): in every reachable storage the accounts
and the handle index are mutually consistent — every registered
account's handle resolves back to its address, and every bound handle
points to a registered account carrying that handle. -/
theorem c10_handle_index_consistent (s : KState) (hs : Reachable s) :
    GoodState s :=
  Steps.preserve
    (fun _ _ _ hok happ hg => applyOp_preserves_good hok happ hg) hs
    ⟨rfl, fun _ ha => Bool.noConfusion ha, fun _ hne => absurd rfl hne⟩

/-- Witness for C10: consistency holds at deployment. -/
theorem c10_handle_index_consistent_witness : GoodState initState :=
  c10_handle_index_consistent initState (Steps.refl _)

/-- A zero-budget pass is the identity. -/
theorem bubblePass_zero (key : Nat → Nat) (l : List Nat) :
    bubblePass key 0 l = l := by
  match l with
  | [] => rfl
  | [a] => rfl
  | a :: b :: rest => rfl

/-- A bounded pass permutes its input. -/
theorem bubblePass_perm (key : Nat → Nat) :
    ∀ (m : Nat) (l : List Nat), (bubblePass key m l).Perm l := by
  intro m
  induction m with
  | zero => intro l; rw [bubblePass_zero]
  | succ m ih =>
    intro l
    match l with
    | [] => exact .refl _
    | [a] => exact .refl _
    | a :: b :: rest =>
      rw [bubblePass]
      split_ifs with h
      · exact ((ih (a :: rest)).cons b).trans (List.Perm.swap a b rest)
      · exact (ih (b :: rest)).cons a

/-- A full-budget pass moves a minimum of the list to its end. -/
theorem bubblePass_min (key : Nat → Nat) :
    ∀ (m : Nat) (l : List Nat), l ≠ [] → l.length ≤ m + 1 →
      ∃ u z, bubblePass key m l = u ++ [z] ∧ ∀ x ∈ l, key z ≤ key x := by
  intro m
  induction m with
  | zero =>
    intro l hne hlen
    match l with
    | [] => exact absurd rfl hne
    | [a] => exact ⟨[], a, rfl, by simp⟩
    | a :: b :: rest => simp at hlen
  | succ m ih =>
    intro l hne hlen
    match l with
    | [] => exact absurd rfl hne
    | [a] => exact ⟨[], a, rfl, by simp⟩
    | a :: b :: rest =>
      rw [bubblePass]
      split_ifs with h
      · obtain ⟨u, z, heq, hmin⟩ := ih (a :: rest) (by simp) (by
          simpa using Nat.le_of_succ_le_succ hlen)
        refine ⟨b :: u, z, by rw [heq, List.cons_append], ?_⟩
        intro x hx
        rcases List.mem_cons.mp hx with rfl | hx
        · exact hmin x (List.mem_cons_self _ _)
        · rcases List.mem_cons.mp hx with rfl | hx
          · exact Nat.le_trans (hmin a (List.mem_cons_self _ _))
              (Nat.le_of_lt h)
          · exact hmin x (List.mem_cons_of_mem _ hx)
      · obtain ⟨u, z, heq, hmin⟩ := ih (b :: rest) (by simp) (by
          simpa using Nat.le_of_succ_le_succ hlen)
        refine ⟨a :: u, z, by rw [heq, List.cons_append], ?_⟩
        intro x hx
        rcases List.mem_cons.mp hx with rfl | hx
        · exact Nat.le_trans (hmin b (List.mem_cons_self _ _))
            (Nat.not_lt.mp h)
        · exact hmin x hx

/-- A pass never moves a trailing element that is already a minimum
of everything before it. -/
theorem bubblePass_append_min (key : Nat → Nat) :
    ∀ (m : Nat) (u : List Nat) (z : Nat), (∀ x ∈ u, key z ≤ key x) →
      bubblePass key m (u ++ [z]) = bubblePass key m u ++ [z] := by
  intro m
  induction m with
  | zero => intro u z _; rw [bubblePass_zero, bubblePass_zero]
  | succ m ih =>
    intro u z hz
    match u with
    | [] => rfl
    | [a] =>
      have ha : ¬ key a < key z := Nat.not_lt.mpr (hz a (by simp))
      simp [bubblePass, ha]
    | a :: b :: rest =>
      have hstep : ∀ (c : Nat), c ∈ a :: b :: rest →
          ∀ x ∈ c :: rest, key z ≤ key x := by
        intro c hc x hx
        rcases List.mem_cons.mp hx with rfl | hx
        · exact hz x hc
        · exact hz x (List.mem_cons_of_mem _ (List.mem_cons_of_mem _ hx))
      rw [List.cons_append, List.cons_append, bubblePass, bubblePass]
      split_ifs with h
      · rw [← List.cons_append,
          ih (a :: rest) z (hstep a (List.mem_cons_self _ _)),
          List.cons_append]
      · rw [← List.cons_append,
          ih (b :: rest) z
            (hstep b (List.mem_cons_of_mem _ (List.mem_cons_self _ _))),
          List.cons_append]

/-- The full sort permutes its input. -/
theorem bubbleSort_perm (key : Nat → Nat) :
    ∀ (b : Nat) (l : List Nat), (bubbleSort key b l).Perm l := by
  intro b
  induction b with
  | zero => exact fun l => .refl l
  | succ b ih =>
    intro l
    rw [bubbleSort]
    exact (ih _).trans (bubblePass_perm key _ l)

/-- The sort never moves a trailing element dominated by the rest. -/
theorem bubbleSort_append_min (key : Nat → Nat) :
    ∀ (b : Nat) (u : List Nat) (z : Nat), (∀ x ∈ u, key z ≤ key x) →
      bubbleSort key b (u ++ [z]) = bubbleSort key b u ++ [z] := by
  intro b
  induction b with
  | zero => intro u z _; rfl
  | succ b ih =>
    intro u z hz
    have hz2 : ∀ x ∈ bubblePass key (b + 1) u, key z ≤ key x :=
      fun x hx => hz x ((bubblePass_perm key (b + 1) u).mem_iff.mp hx)
    rw [bubbleSort, bubblePass_append_min key _ u z hz, ih _ _ hz2,
      bubbleSort]

/-- Bubble sort with a budget of at least `length - 1` passes sorts
the list into non-increasing key order. -/
theorem bubbleSort_sorted (key : Nat → Nat) :
    ∀ (b : Nat) (l : List Nat), l.length ≤ b + 1 →
      (bubbleSort key b l).Pairwise (fun x y => key y ≤ key x) := by
  intro b
  induction b with
  | zero =>
    intro l hlen
    match l with
    | [] => simp [bubbleSort]
    | [a] => simp [bubbleSort]
    | a :: b :: rest => simp at hlen
  | succ b ih =>
    intro l hlen
    match l with
    | [] =>
      rw [bubbleSort]
      exact ih [] (by simp)
    | a :: t =>
      obtain ⟨u, z, heq, hmin⟩ :=
        bubblePass_min key (b + 1) (a :: t) (by simp) hlen
      have hzu : ∀ x ∈ u, key z ≤ key x := by
        intro x hx
        refine hmin x ((bubblePass_perm key (b + 1) (a :: t)).mem_iff.mp ?_)
        rw [heq]
        exact List.mem_append_left _ hx
      have hulen : u.length ≤ b + 1 := by
        have h1 := (bubblePass_perm key (b + 1) (a :: t)).length_eq
        rw [heq] at h1
        have h2 : t.length + 1 ≤ b + 1 + 1 := by simpa using hlen
        simp at h1
        omega
      rw [bubbleSort, heq, bubbleSort_append_min key b u z hzu,
        List.pairwise_append]
      refine ⟨ih u hulen, by simp, ?_⟩
      intro x hx y hy
      rw [List.mem_singleton.mp hy]
      exact hzu x ((bubbleSort_perm key b u).mem_iff.mp hx)

/-- Every address the unique-user scan accumulates is eligible:
each insertion is guarded by the registered/not-pending/not-private
filter. -/
theorem foldl_lbInsert_eligible (s : KState) :
    ∀ (hist : List KudosTransaction) (acc : List Nat),
      (∀ a ∈ acc, lbEligible s a = true) →
      ∀ a ∈ hist.foldl (lbInsert s) acc, lbEligible s a = true := by
  intro hist
  induction hist with
  | nil => exact fun acc hacc a ha => hacc a ha
  | cons tx rest ih =>
    intro acc hacc a ha
    rw [List.foldl_cons] at ha
    refine ih (lbInsert s acc tx) ?_ a ha
    intro b hb
    simp only [lbInsert] at hb
    split_ifs at hb with h1 h2 h3
    · rcases List.mem_append.mp hb with hb1 | hb1
      · rcases List.mem_append.mp hb1 with hb2 | hb2
        · exact hacc b hb2
        · rw [List.mem_singleton.mp hb2]
          exact ((Bool.and_eq_true _ _) ▸ h2).2
      · rw [List.mem_singleton.mp hb1]
        exact ((Bool.and_eq_true _ _) ▸ h1).2
    · rcases List.mem_append.mp hb with hb1 | hb1
      · exact hacc b hb1
      · rw [List.mem_singleton.mp hb1]
        exact ((Bool.and_eq_true _ _) ▸ h1).2
    · rcases List.mem_append.mp hb with hb1 | hb1
      · exact hacc b hb1
      · rw [List.mem_singleton.mp hb1]
        exact ((Bool.and_eq_true _ _) ▸ h3).2
    · exact hacc b hb

/-- Claim C8 (confirmed): in any storage and for any limit, every
address in a `getLeaderboard` row is currently registered, not
pending deletion and not privacy-flagged, and the reported
`kudosReceived` column is sorted in non-increasing order. -/
theorem c8_leaderboard_filtered_sorted (s : KState) (limit : Nat) :
    (∀ a ∈ (getLeaderboard s limit).2.2,
      (s.users a).isRegistered = true ∧
      (s.users a).deletionRequestedAt = 0 ∧
      s.privateProfiles a = false) ∧
    ((getLeaderboard s limit).2.1).Pairwise (fun x y => y ≤ x) := by
  unfold getLeaderboard
  split_ifs with h0
  · simp
  · constructor
    · intro a ha
      simp only [List.mem_map] at ha
      have ha1 : a ∈ uniqueLbUsers s := by
        have hs : a ∈ bubbleSort (fun a => (s.users a).kudosReceived)
            ((uniqueLbUsers s).length - 1) (uniqueLbUsers s) :=
          List.mem_of_mem_take ha
        exact (bubbleSort_perm _ _ _).mem_iff.mp hs
      have he := foldl_lbInsert_eligible s s.kudosHistory []
        (by simp) a ha1
      simp only [lbEligible, Bool.and_eq_true, Bool.not_eq_true',
        decide_eq_true_eq] at he
      exact ⟨he.1.1, he.1.2, he.2⟩
    · have hsor := bubbleSort_sorted (fun a => (s.users a).kudosReceived)
        ((uniqueLbUsers s).length - 1) (uniqueLbUsers s) (by omega)
      rw [List.pairwise_map]
      exact (hsor.sublist (List.take_sublist _ _))

/-- Witness for C8: in the scenario where private "alice" gave kudos
to "bob", the leaderboard column is sorted and the concrete row
member (address 2) passes the filter. -/
theorem c8_leaderboard_witness :
    ((getLeaderboard exStPriv 10).2.1).Pairwise (fun x y => y ≤ x) ∧
    (exStPriv.users 2).isRegistered = true ∧
    exStPriv.privateProfiles 2 = false :=
  ⟨(c8_leaderboard_filtered_sorted exStPriv 10).2,
   ((c8_leaderboard_filtered_sorted exStPriv 10).1 2 (by decide)).1,
   ((c8_leaderboard_filtered_sorted exStPriv 10).1 2 (by decide)).2.2⟩
